import Mathlib

/-!
Shallow embedding of the stack-discipline bridge of the hlua/tlua Lua binding
layer (src/hlua/hlua/src/lib.rs) and of the Uuid msgpack adapter
(src/tarantool/src/uuid.rs), together with theorems settling the frozen
claims about them.

The Lua operand stack is modelled as a list of values with the top of the
stack at the head.  Stateful C API calls become explicit state passing on
this list (plus an association list for the table of globals).  Machine
integers (i32 sizes and indices) are modelled as Int.
-/

/-- Runtime Lua values, as far as the claims need to distinguish them.  The
payloads are irrelevant to the stack discipline; the constructors mirror the
runtime type tags reported by ffi.lua_type / ffi.lua_typename. -/
inductive LuaValue
| nil
| boolean (b : Bool)
| number (n : Int)
| str (s : String)
| table (id : Nat)
| func (id : Nat)
| userdata (id : Nat)
deriving Repr, DecidableEq

/-- Runtime type name string for a value, as returned by ffi.lua_typename
applied to the ffi.lua_type tag of the value. -/
def luaTypeName : LuaValue → String
| LuaValue.nil => "nil"
| LuaValue.boolean _ => "boolean"
| LuaValue.number _ => "number"
| LuaValue.str _ => "string"
| LuaValue.table _ => "table"
| LuaValue.func _ => "function"
| LuaValue.userdata _ => "userdata"

/-- The Lua operand stack: head of the list is the top of the stack. -/
abbrev LuaStack := List LuaValue

/-- Models ffi.lua_gettop: the current height of the stack. -/
def lua_gettop (s : LuaStack) : Nat := s.length

/-- Models ffi.lua_pop(l, n) for n at least 0: removes n values from the top
of the stack.  The C API leaves negative arguments undefined; the embedding
clamps them to zero and every theorem about popping assumes nonnegativity. -/
def lua_pop (n : Int) (s : LuaStack) : LuaStack := s.drop n.toNat

/-- State of one interpreter instance: the operand stack plus the table of
globals (an association list from key values to values, most recent binding
first, which is how the embedding realises table assignment). -/
structure LuaSt where
  stack : List LuaValue
  globals : List (LuaValue × LuaValue)
deriving Repr, DecidableEq

/-- Models ffi.lua_pop on the full interpreter state. -/
def lua_popN (n : Int) (st : LuaSt) : LuaSt := { st with stack := lua_pop n st.stack }

/-- Value sitting at a stack index in the C API addressing scheme: negative
indices count from the top (-1 is the top), positive indices count from the
bottom (1 is the bottom); index 0 and out-of-range indices address no value. -/
def valueAt (s : LuaStack) (i : Int) : Option LuaValue :=
  if i < 0 then s.get? ((-i).toNat - 1)
  else if 1 ≤ i ∧ i.toNat ≤ s.length then s.get? (s.length - i.toNat)
  else none

/-- Models ffi.lua_isnil(l, i): whether the value at index i is nil.  A
nonexistent index has type LUA_TNONE, which is not nil. -/
def isNilAt (s : LuaStack) (i : Int) : Bool := valueAt s i == some LuaValue.nil

/-- Embedding of PushGuard (src/hlua/hlua/src/lib.rs lines 169-237): the RAII
token recording how many stack slots it must pop on destruction.  The wrapped
handle of the Rust struct is the capability to reach the interpreter state,
which the embedding threads explicitly, so only the size field remains. -/
structure PushGuard where
  size : Int
deriving Repr, DecidableEq

/-- Embedding of PushGuard.new (lines 182-188): records the bookkeeping value
and performs no stack mutation, so it returns the stack unchanged together
with the new guard. -/
def PushGuard.new (s : LuaStack) (size : Int) : LuaStack × PushGuard :=
  (s, { size := size })

/-- Embedding of PushGuard.forget_internal (lines 213-218): returns the
recorded size and zeroes it, cancelling the automatic pop. -/
def PushGuard.forget_internal (g : PushGuard) : Int × PushGuard :=
  (g.size, { g with size := 0 })

/-- Embedding of PushGuard.forget (lines 206-209), which just delegates to
forget_internal. -/
def PushGuard.forget (g : PushGuard) : Int × PushGuard :=
  g.forget_internal

/-- Embedding of the Drop implementation for PushGuard (lines 976-985): if the
recorded size is nonzero, pop exactly that many values in one lua_pop call;
otherwise touch nothing. -/
def PushGuard.dropRun (g : PushGuard) (s : LuaStack) : LuaStack :=
  if g.size ≠ 0 then lua_pop g.size s else s

/-- Embedding of the stack effect of PushGuard.into_inner (lines 223-236): pop
the recorded slots if any remain armed, then hand back the wrapped handle. -/
def PushGuard.into_inner (g : PushGuard) (s : LuaStack) : LuaStack :=
  if g.size ≠ 0 then lua_pop g.size s else s

/-- Generic default body of LuaRead.lua_read_at_maybe_zero_position
(src/hlua/hlua/src/lib.rs lines 398-404), parametrised by the
lua_read_at_position implementation of the reading type: index 0 never
reaches the positional reader and is answered with the absent outcome. -/
def lua_read_at_maybe_zero_position {V : Type}
    (readPos : LuaSt → Int → Except LuaSt V) (lua : LuaSt) (index : Int) :
    Except LuaSt V :=
  if index = 0 then Except.error lua else readPos lua index

/-- Embedding of the Nil marker type (line 988). -/
inductive Nil
| mk
deriving Repr, DecidableEq

/-- Embedding of the LuaRead implementation of lua_read_at_position for Nil
(lines 1015-1021): succeeds exactly when the slot holds nil. -/
def Nil.lua_read_at_position (lua : LuaSt) (index : Int) : Except LuaSt Nil :=
  if isNilAt lua.stack index then Except.ok Nil.mk else Except.error lua

/-- Embedding of the overridden lua_read_at_maybe_zero_position for Nil
(lines 1007-1013): index 0 decodes to Nil instead of failing. -/
def Nil.lua_read_at_maybe_zero_position (lua : LuaSt) (index : Int) :
    Except LuaSt Nil :=
  if index = 0 then Except.ok Nil.mk else Nil.lua_read_at_position lua index

/-- Modelled from the spec: ffi.is_relative_index, which is not under src/.
Stack positions are referenced either relative to the top, written as
negative numbers, or as absolute positions; so an index is relative exactly
when it is negative. -/
def is_relative_index (i : Int) : Bool := i < 0

/-- Embedding of AbsoluteIndex (lines 1024-1040). -/
structure AbsoluteIndex where
  pos : Int
deriving Repr, DecidableEq

/-- Embedding of AbsoluteIndex.new (lines 1028-1039): a relative index is
resolved against the current stack height as top + index + 1; the expect call
on the NonZeroI32 construction panics when that resolution is zero, which the
embedding reports as none.  A non-relative index is returned unchanged. -/
def AbsoluteIndex.new (index : Int) (top : Nat) : Option AbsoluteIndex :=
  if is_relative_index index then
    if (top : Int) + index + 1 ≠ 0 then some { pos := (top : Int) + index + 1 }
    else none
  else some { pos := index }

/-- Embedding of LuaError (lines 411-428).  The payload of ReadError is the
message of the wrapped IO error. -/
inductive LuaError
| SyntaxError (msg : String)
| ExecutionError (msg : String)
| ReadError (msg : String)
| WrongType (rust_expected : String) (lua_actual : String)
deriving Repr, DecidableEq

/-- Runtime type string of the value inspected at distance i below the top,
as produced by the single_typename expansion inside lua_typename (lines 441-449):
ffi.lua_type at index -i followed by ffi.lua_typename.  A nonexistent index
has type LUA_TNONE whose type name is the string for no value. -/
def single_typename (st : LuaSt) (i : Int) : String :=
  match valueAt st.stack (-i) with
  | some v => luaTypeName v
  | none => "no value"

/-- Embedding of lua_typename (lines 439-463): for one value the bare type
string of the top of the stack, otherwise a parenthesised rendering built by
joining the type string of each inspected value, each of the first
n_values - 1 followed by a comma and a space. -/
def lua_typename (st : LuaSt) (n_values : Int) : String :=
  if n_values = 1 then single_typename st 1
  else
    String.join
      (["("]
        ++ (List.range (n_values - 1).toNat).map
            (fun (k : Nat) => single_typename st ((k : Int) + 1) ++ ", ")
        ++ [single_typename st n_values, ")"])

/-- Embedding of LuaError.wrong_type (lines 431-436).  The Rust source takes
the requested host type T as a type parameter and renders its name with
std.any.type_name; the embedding receives that rendered name directly. -/
def LuaError.wrong_type (rustTypeName : String) (st : LuaSt) (n_values : Int) :
    LuaError :=
  LuaError.WrongType rustTypeName (lua_typename st n_values)

/-- Rendering of several runtime type names the way the spec words it: the
names joined by a comma and a space.  This definition follows the words of
the spec, to be compared with the construction inside lua_typename. -/
def specJoinComma : List String → String
| [] => ""
| [t] => t
| t :: u :: ts => t ++ ", " ++ specJoinComma (u :: ts)

/-- Rendering of a multi-value runtime type as the spec words it. -/
def specTupleRendering (ts : List String) : String :=
  "(" ++ specJoinComma ts ++ ")"

/-- Models ffi.lua_getglobal(l, name): pushes the value of the global onto the
stack, pushing nil when the global is absent. -/
def lua_getglobal (name : String) (st : LuaSt) : LuaSt :=
  { st with stack := ((st.globals.lookup (LuaValue.str name)).getD LuaValue.nil) :: st.stack }

/-- Models ffi.lua_pushglobaltable: pushes the table of globals onto the
stack.  The embedding reserves table id 0 for the globals table. -/
def lua_pushglobaltable (st : LuaSt) : LuaSt :=
  { st with stack := LuaValue.table 0 :: st.stack }

/-- Models ffi.lua_settable(l, -3) at the one call site inside checked_set,
where the slot at position -3 holds the globals table: consumes the value at
the top and the key below it, binds the key to the value in the globals, and
leaves the table slot in place.  A stack with fewer than two slots cannot
occur at that call site. -/
def lua_settable_globals (st : LuaSt) : LuaSt :=
  match st.stack with
  | v :: k :: rest => { stack := rest, globals := (k, v) :: st.globals }
  | _ => st

/-- Stack state right after the first two pushes inside checked_set: the
globals table, then the name pushed as a string (the string push writes
exactly one slot and cannot fail, and its guard is immediately disarmed). -/
def checked_set_stage (st : LuaSt) (name : String) : LuaSt :=
  { lua_pushglobaltable st with
    stack := LuaValue.str name :: (lua_pushglobaltable st).stack }

/-- Result of checked_set: success, a surfaced push error (carrying the state
the way the Rust code returns the error and keeps the context alive), or the
panic of the runtime assertion that the value push wrote exactly one slot. -/
inductive SetResult (ε : Type)
| ok (st : LuaSt)
| err (e : ε) (st : LuaSt)
| panicked (st : LuaSt)
deriving Repr, DecidableEq

/-- Embedding of Lua.checked_set (src/hlua/hlua/src/lib.rs lines 837-866),
parametrised by the push_to_lua implementation of the value being written.
The pusher receives the staged state; on success it returns the new state
together with the guard size it produced, on failure it returns the error
together with the state it left behind.  The body mirrors the source: push
the globals table, push the name, push the value; on push failure pop the
two staged slots and surface the error; on success assert the guard covers
one slot, disarm it, run lua_settable at -3 and pop the table. -/
def Lua.checked_set {ε : Type} (st : LuaSt) (name : String)
    (pushV : LuaSt → Except (ε × LuaSt) (LuaSt × Int)) : SetResult ε :=
  match pushV (checked_set_stage st name) with
  | Except.error (e, st3) => SetResult.err e (lua_popN 2 st3)
  | Except.ok (st3, n) =>
    if n = 1 then SetResult.ok (lua_popN 1 (lua_settable_globals st3))
    else SetResult.panicked st3

/-- Embedding of Lua.get (src/hlua/hlua/src/lib.rs lines 762-777),
parametrised by the lua_read implementation of the requested type V.  The
reader receives the state with the fetched global on top of the stack,
owning the one-slot guard created around it; on success it returns the
decoded value together with the state its guard handling left behind, on
failure it returns the state unread.  The body mirrors the source: push the
global, build a one-slot guard, return None at once when the slot is nil
(dropping the guard), otherwise run the reader and collapse a failed read to
None (the ok() call drops the returned guard, popping its slot). -/
def Lua.get {V : Type} (st : LuaSt) (name : String)
    (rdr : LuaSt → Except LuaSt (V × LuaSt)) : Option V × LuaSt :=
  let st1 := lua_getglobal name st
  if isNilAt st1.stack (-1) then (none, lua_popN 1 st1)
  else
    match rdr st1 with
    | Except.ok (v, st2) => (some v, st2)
    | Except.error stE => (none, lua_popN 1 stE)

/-- Modelled from the spec: a table reference, a guard-wrapped handle to a
stack position holding a table.  The LuaTable reader lives in lua_tables.rs,
which is not under src/; the spec states that decoding a table yields a
guard-wrapped handle to the position of the table, not a copy, so the read
keeps the inspected slot on the stack, retained by the guard inside the
returned handle. -/
structure LuaTableRef where
  index : Int
deriving Repr, DecidableEq

/-- Modelled from the spec: the LuaRead implementation for table references
(lua_tables.rs, not under src/).  It succeeds when the top of the stack holds
a table and returns the state unchanged, the slot staying covered by the
guard now owned by the returned handle. -/
def tableReader (st : LuaSt) : Except LuaSt (LuaTableRef × LuaSt) :=
  match st.stack with
  | LuaValue.table _ :: _ => Except.ok ({ index := -1 }, st)
  | _ => Except.error st

/-- Concrete sample reader used as input when exercising the get embedding:
it decodes an integer from the top of the stack, consuming the one-slot
guard (popping the slot) on success and returning the state untouched on
failure, the way the LuaRead implementations for plain value types behave. -/
def intReader (st : LuaSt) : Except LuaSt (Int × LuaSt) :=
  match st.stack with
  | LuaValue.number n :: rest => Except.ok (n, { st with stack := rest })
  | _ => Except.error st

/-- One step of the guard protocol exercised against one interpreter
instance, for the stack balance invariant.  Guards are identified by the
order of their creation. -/
inductive StackOp
| pushOp (vals : List LuaValue)
| readOp
| dropOp (gi : Nat)
| disarmDrainOp (gi : Nat)
deriving Repr, DecidableEq

/-- State of the guard protocol machine: the operand stack plus the record of
every guard produced so far, holding its size while the guard is live and
none once it has been consumed by a drop or a disarm. -/
structure GuardMState where
  stack : List LuaValue
  guards : List (Option Nat)
deriving Repr, DecidableEq

/-- One transition of the guard protocol machine.  A push places its values
on the stack and produces a guard covering exactly that many slots.  A read
inspects the stack without mutating it, as lua_read_at_position must.  A
drop of a live guard runs the embedded Drop code of PushGuard.  A disarm of
a live guard runs the embedded forget, the caller then pops the returned
count itself, and the later destruction of the disarmed guard runs the
embedded Drop code on the zeroed guard.  Operations naming a guard that is
not live are impossible in the Rust source, where consumption is enforced by
moving the guard by value; the machine leaves the state unchanged on them. -/
def stepOp (st : GuardMState) (op : StackOp) : GuardMState :=
  match op with
  | StackOp.pushOp vals =>
    { stack := vals.reverse ++ st.stack, guards := st.guards ++ [some vals.length] }
  | StackOp.readOp => st
  | StackOp.dropOp gi =>
    match st.guards[gi]? with
    | some (some n) =>
      { stack := PushGuard.dropRun { size := (n : Int) } st.stack,
        guards := st.guards.set gi none }
    | _ => st
  | StackOp.disarmDrainOp gi =>
    match st.guards[gi]? with
    | some (some n) =>
      { stack :=
          PushGuard.dropRun (PushGuard.forget { size := (n : Int) }).2
            (lua_pop (PushGuard.forget { size := (n : Int) }).1 st.stack),
        guards := st.guards.set gi none }
    | _ => st

/-- Runs a sequence of guard protocol steps. -/
def runOps (st : GuardMState) : List StackOp → GuardMState
| [] => st
| op :: ops => runOps (stepOp st op) ops

/-- Total number of stack slots still owed by live guards. -/
def liveSum (st : GuardMState) : Nat := (st.guards.filterMap id).sum

/-- Modelled from the spec: the fixed msgpack extension type code for UUID
values (crate ffi module, not under src/); its concrete numeric value does
not matter to the claims, only that encoding and decoding agree on it. -/
def MP_UUID : Int := 2

/-- Embedding of the Uuid wrapper (src/tarantool/src/uuid.rs lines 9-12): a
128 bit identifier stored as its 16 bytes in big endian order. -/
structure Uuid where
  inner : { l : List Nat // l.length = 16 }
deriving DecidableEq

/-- Embedding of Uuid.from_bytes (lines 36-38). -/
def Uuid.from_bytes (bytes : List Nat) (h : bytes.length = 16) : Uuid :=
  { inner := ⟨bytes, h⟩ }

/-- Embedding of Uuid.try_from_slice (lines 43-47): the TryInto conversion
from a slice to a 16 byte array succeeds exactly when the slice has length
16, longer slices being rejected rather than truncated. -/
def Uuid.try_from_slice (bytes : List Nat) : Option Uuid :=
  if h : bytes.length = 16 then some (Uuid.from_bytes bytes h) else none

/-- Embedding of Uuid.as_bytes (lines 75-77). -/
def Uuid.as_bytes (u : Uuid) : List Nat := u.inner.val

/-- The 2-element extension structure of the msgpack codec boundary: the
extension type code paired with the raw payload bytes, mirroring the
_ExtStruct serde helper of the source. -/
structure ExtStruct where
  kind : Int
  data : List Nat
deriving Repr, DecidableEq

/-- Embedding of the Serialize implementation for Uuid (lines 214-225): the
extension structure tagged MP_UUID carrying exactly the 16 bytes. -/
def Uuid.serialize (u : Uuid) : ExtStruct :=
  { kind := MP_UUID, data := u.as_bytes }

/-- Embedding of the Deserialize implementation for Uuid (lines 227-252): a
mismatched tag is rejected naming the found extension code, then the payload
goes through try_from_slice and a wrong length is rejected naming the
expected length 16 and the actual length. -/
def Uuid.deserialize (e : ExtStruct) : Except String Uuid :=
  if e.kind ≠ MP_UUID then
    Except.error ("Expected UUID, found msgpack ext #" ++ toString e.kind)
  else
    match Uuid.try_from_slice e.data with
    | some u => Except.ok u
    | none =>
      Except.error
        ("Not enough bytes for UUID: expected 16, got " ++ toString e.data.length)

/-!
Helper lemmas shared by several of the claim theorems.
-/

theorem foldl_str (l : List String) (a b : String) :
    l.foldl (fun x y => x ++ y) (a ++ b) = a ++ l.foldl (fun x y => x ++ y) b := by
  induction l generalizing b with
  | nil => simp
  | cons c t ih =>
    simp only [List.foldl]
    rw [String.append_assoc, ih]

theorem strJoin_cons (a : String) (l : List String) :
    String.join (a :: l) = a ++ String.join l := by
  show List.foldl (fun x y => x ++ y) ("" ++ a) l = a ++ String.join l
  rw [String.empty_append, String.join]
  calc List.foldl (fun x y => x ++ y) a l
      = List.foldl (fun x y => x ++ y) (a ++ "") l := by rw [String.append_empty]
    _ = a ++ List.foldl (fun x y => x ++ y) "" l := foldl_str l a ""

theorem strJoin_append (l1 l2 : List String) :
    String.join (l1 ++ l2) = String.join l1 ++ String.join l2 := by
  induction l1 with
  | nil => simp [String.join, String.empty_append]
  | cons a t ih =>
    rw [List.cons_append, strJoin_cons, ih, strJoin_cons, String.append_assoc]

theorem join_map_comma (l : List String) (last : String) :
    String.join (l.map (fun t => t ++ ", ")) ++ last = specJoinComma (l ++ [last]) := by
  induction l with
  | nil => simp [specJoinComma, String.join, String.empty_append]
  | cons a t ih =>
    cases t with
    | nil =>
      simp [specJoinComma, strJoin_cons, String.join, String.append_empty,
        String.append_assoc]
    | cons b u =>
      rw [List.map_cons, strJoin_cons, String.append_assoc, ih]
      rfl

theorem dropRun_natCast (n : Nat) (s : LuaStack) :
    PushGuard.dropRun { size := (n : Int) } s = s.drop n := by
  by_cases h0 : n = 0
  · subst h0
    simp [PushGuard.dropRun]
  · have : ((n : Int)) ≠ 0 := by exact_mod_cast h0
    simp [PushGuard.dropRun, lua_pop, this]

/-- C2: PushGuard.new performs no stack mutation itself (the stack is
unchanged by construction), size on the resulting guard returns n, and
dropping the guard without disarming pops exactly n values from the top of
the stack in one pop call, so the stack height after the drop is n less than
at construction (for sizes within the defined domain of lua_pop, namely
nonnegative counts no larger than the stack height). -/
theorem pushGuard_new_size_drop (s : LuaStack) (n : Int) :
    (PushGuard.new s n).1 = s ∧
    ((PushGuard.new s n).2).size = n ∧
    (0 ≤ n → PushGuard.dropRun (PushGuard.new s n).2 s = s.drop n.toNat) ∧
    (0 ≤ n → n.toNat ≤ s.length →
      (lua_gettop (PushGuard.dropRun (PushGuard.new s n).2 s) : Int)
        = (lua_gettop s : Int) - n) := by
  have hdrop : PushGuard.dropRun (PushGuard.new s n).2 s = s.drop n.toNat := by
    by_cases h0 : n = 0
    · subst h0
      simp [PushGuard.new, PushGuard.dropRun]
    · simp [PushGuard.new, PushGuard.dropRun, lua_pop, h0]
  refine ⟨rfl, rfl, fun _ => hdrop, fun hn hle => ?_⟩
  rw [hdrop]
  unfold lua_gettop
  rw [List.length_drop]
  omega

/-- Witness for C2 at a concrete stack and size. -/
theorem pushGuard_new_size_drop_witness :
    0 ≤ (2 : Int) ∧
    (2 : Int).toNat ≤ [LuaValue.nil, LuaValue.boolean true, LuaValue.number 5].length ∧
    (lua_gettop (PushGuard.dropRun
        (PushGuard.new [LuaValue.nil, LuaValue.boolean true, LuaValue.number 5] 2).2
        [LuaValue.nil, LuaValue.boolean true, LuaValue.number 5]) : Int)
      = (lua_gettop [LuaValue.nil, LuaValue.boolean true, LuaValue.number 5] : Int) - 2 :=
  ⟨by decide, by decide,
    (pushGuard_new_size_drop [LuaValue.nil, LuaValue.boolean true, LuaValue.number 5] 2).2.2.2
      (by decide) (by decide)⟩

/-- C3: disarming a guard via forget returns its recorded count, zeroes the
count so the later destruction of the disarmed guard pops nothing, and the
stack effect of destroying the disarmed guard is the identity both through
Drop and through into_inner, so no slots are ever popped on behalf of a
disarmed guard. -/
theorem pushGuard_forget_disarms (g : PushGuard) (s : LuaStack) :
    (g.forget).1 = g.size ∧
    ((g.forget).2).size = 0 ∧
    PushGuard.dropRun (g.forget).2 s = s ∧
    PushGuard.into_inner (g.forget).2 s = s := by
  refine ⟨rfl, rfl, ?_, ?_⟩ <;>
    simp [PushGuard.forget, PushGuard.forget_internal, PushGuard.dropRun,
      PushGuard.into_inner]

/-- C6: the default lua_read_at_maybe_zero_position answers index 0 with the
absent outcome without ever invoking the positional reader, and forwards
every nonzero index to lua_read_at_position unchanged; the Nil implementation
instead answers index 0 with Nil and forwards every nonzero index. -/
theorem lua_read_maybe_zero_spec {V : Type}
    (readPos : LuaSt → Int → Except LuaSt V) (lua : LuaSt) (i : Int) :
    lua_read_at_maybe_zero_position readPos lua 0 = Except.error lua ∧
    (i ≠ 0 → lua_read_at_maybe_zero_position readPos lua i = readPos lua i) ∧
    Nil.lua_read_at_maybe_zero_position lua 0 = Except.ok Nil.mk ∧
    (i ≠ 0 → Nil.lua_read_at_maybe_zero_position lua i
      = Nil.lua_read_at_position lua i) := by
  refine ⟨?_, ?_, ?_, ?_⟩
  · simp [lua_read_at_maybe_zero_position]
  · intro h
    simp [lua_read_at_maybe_zero_position, h]
  · simp [Nil.lua_read_at_maybe_zero_position]
  · intro h
    simp [Nil.lua_read_at_maybe_zero_position, h]

/-- Witness for C6 at a concrete state and the Nil positional reader. -/
theorem lua_read_maybe_zero_spec_witness :
    (-1 : Int) ≠ 0 ∧
    lua_read_at_maybe_zero_position Nil.lua_read_at_position
        (LuaSt.mk [LuaValue.nil] []) (-1)
      = Nil.lua_read_at_position (LuaSt.mk [LuaValue.nil] []) (-1) ∧
    Nil.lua_read_at_maybe_zero_position (LuaSt.mk [LuaValue.nil] []) (-1)
      = Nil.lua_read_at_position (LuaSt.mk [LuaValue.nil] []) (-1) :=
  ⟨by decide,
    (lua_read_maybe_zero_spec Nil.lua_read_at_position
      (LuaSt.mk [LuaValue.nil] []) (-1)).2.1 (by decide),
    (lua_read_maybe_zero_spec Nil.lua_read_at_position
      (LuaSt.mk [LuaValue.nil] []) (-1)).2.2.2 (by decide)⟩

/-- C7: a relative (negative) index is resolved by AbsoluteIndex.new against
the current stack height as top + index + 1 (whenever that resolution is a
valid nonzero position), so index -1 resolves to the position of the current
top of the stack; an index that is not relative is returned unchanged. -/
theorem absoluteIndex_new_spec (i : Int) (top : Nat) :
    (is_relative_index i = true → (top : Int) + i + 1 ≠ 0 →
      AbsoluteIndex.new i top = some { pos := (top : Int) + i + 1 }) ∧
    (1 ≤ top → AbsoluteIndex.new (-1) top = some { pos := (top : Int) }) ∧
    (is_relative_index i = false → AbsoluteIndex.new i top = some { pos := i }) := by
  refine ⟨?_, ?_, ?_⟩
  · intro hrel hnz
    simp [AbsoluteIndex.new, hrel, hnz]
  · intro htop
    have hrel : is_relative_index (-1) = true := by decide
    have hnz : (top : Int) + (-1) + 1 ≠ 0 := by omega
    have heq : (top : Int) + (-1) + 1 = (top : Int) := by ring
    simp [AbsoluteIndex.new, hrel, hnz, heq]
    omega
  · intro h
    simp [AbsoluteIndex.new, h]

/-- Witness for C7 at concrete relative and absolute indices. -/
theorem absoluteIndex_new_spec_witness :
    AbsoluteIndex.new (-2) 5 = some { pos := ((5 : Nat) : Int) + (-2) + 1 } ∧
    AbsoluteIndex.new (-1) 5 = some { pos := ((5 : Nat) : Int) } ∧
    AbsoluteIndex.new 3 0 = some { pos := (3 : Int) } :=
  ⟨(absoluteIndex_new_spec (-2) 5).1 (by decide) (by decide),
    (absoluteIndex_new_spec (-2) 5).2.1 (by decide),
    (absoluteIndex_new_spec 3 0).2.2 (by decide)⟩

/-- C4: for every value pusher that fails while leaving no net slots behind
(the contract of the Push protocol), checked_set surfaces the push error and
leaves the stack exactly as it was before the call, because the two staged
slots (globals table and name) are popped on the failure path; for every
pusher that succeeds writing exactly one slot, checked_set writes the global
and returns success with the stack also exactly restored. -/
theorem checked_set_spec {ε : Type} (st : LuaSt) (name : String)
    (pushV : LuaSt → Except (ε × LuaSt) (LuaSt × Int)) :
    (∀ e st3, pushV (checked_set_stage st name) = Except.error (e, st3) →
      st3.stack = (checked_set_stage st name).stack →
      Lua.checked_set st name pushV
        = SetResult.err e (LuaSt.mk st.stack st3.globals)) ∧
    (∀ v st3, pushV (checked_set_stage st name) = Except.ok (st3, 1) →
      st3.stack = v :: (checked_set_stage st name).stack →
      Lua.checked_set st name pushV
        = SetResult.ok (LuaSt.mk st.stack ((LuaValue.str name, v) :: st3.globals)) ∧
      ((LuaValue.str name, v) :: st3.globals).lookup (LuaValue.str name) = some v) := by
  constructor
  · intro e st3 hp hs
    cases st3 with
    | mk s3 g3 =>
      simp only [checked_set_stage, lua_pushglobaltable] at hs
      subst hs
      simp [Lua.checked_set, hp, lua_popN, lua_pop]
  · intro v st3 hp hs
    cases st3 with
    | mk s3 g3 =>
      simp only [checked_set_stage, lua_pushglobaltable] at hs
      subst hs
      refine ⟨?_, ?_⟩
      · simp [Lua.checked_set, hp, lua_settable_globals, lua_popN, lua_pop]
      · simp [List.lookup]

/-- Witness for C4 at a concrete context, name, failing pusher and
succeeding pusher. -/
theorem checked_set_spec_witness :
    Lua.checked_set (LuaSt.mk [] []) "a"
        (fun s => (Except.error ((), s) : Except (Unit × LuaSt) (LuaSt × Int)))
      = SetResult.err () (LuaSt.mk [] []) ∧
    Lua.checked_set (LuaSt.mk [] []) "a"
        (fun s => (Except.ok (LuaSt.mk (LuaValue.number 7 :: s.stack) s.globals, 1)
          : Except (Unit × LuaSt) (LuaSt × Int)))
      = SetResult.ok
          (LuaSt.mk [] [(LuaValue.str "a", LuaValue.number 7)]) ∧
    ([(LuaValue.str "a", LuaValue.number 7)] : List (LuaValue × LuaValue)).lookup
        (LuaValue.str "a") = some (LuaValue.number 7) :=
  ⟨(checked_set_spec (LuaSt.mk [] []) "a"
      (fun s => (Except.error ((), s) : Except (Unit × LuaSt) (LuaSt × Int)))).1
      () (checked_set_stage (LuaSt.mk [] []) "a") rfl rfl,
    ((checked_set_spec (LuaSt.mk [] []) "a"
      (fun s => (Except.ok (LuaSt.mk (LuaValue.number 7 :: s.stack) s.globals, 1)
        : Except (Unit × LuaSt) (LuaSt × Int)))).2
      (LuaValue.number 7)
      (LuaSt.mk (LuaValue.number 7 :: (checked_set_stage (LuaSt.mk [] []) "a").stack)
        (checked_set_stage (LuaSt.mk [] []) "a").globals) rfl rfl).1,
    ((checked_set_spec (LuaSt.mk [] []) "a"
      (fun s => (Except.ok (LuaSt.mk (LuaValue.number 7 :: s.stack) s.globals, 1)
        : Except (Unit × LuaSt) (LuaSt × Int)))).2
      (LuaValue.number 7)
      (LuaSt.mk (LuaValue.number 7 :: (checked_set_stage (LuaSt.mk [] []) "a").stack)
        (checked_set_stage (LuaSt.mk [] []) "a").globals) rfl rfl).2⟩

/-- C9: serializing a Uuid produces the 2-element extension structure tagged
MP_UUID carrying exactly its 16 bytes; deserializing succeeds exactly when
the tag equals MP_UUID and the payload has exactly 16 bytes, a mismatched
tag is rejected with the error naming the found extension code, and a wrong
payload length is rejected with the error naming the expected length 16 and
the actual length. -/
theorem uuid_serde_spec (u : Uuid) (e : ExtStruct) :
    (u.serialize.kind = MP_UUID ∧ u.serialize.data = u.as_bytes ∧
      u.as_bytes.length = 16) ∧
    Uuid.deserialize u.serialize = Except.ok u ∧
    (e.kind ≠ MP_UUID →
      Uuid.deserialize e
        = Except.error ("Expected UUID, found msgpack ext #" ++ toString e.kind)) ∧
    (e.kind = MP_UUID → e.data.length ≠ 16 →
      Uuid.deserialize e
        = Except.error
            ("Not enough bytes for UUID: expected 16, got " ++ toString e.data.length)) ∧
    ((hk : e.kind = MP_UUID) → (hlen : e.data.length = 16) →
      Uuid.deserialize e = Except.ok (Uuid.from_bytes e.data hlen) ∧
      (Uuid.from_bytes e.data hlen).as_bytes = e.data) := by
  refine ⟨⟨rfl, rfl, u.inner.property⟩, ?_, ?_, ?_, ?_⟩
  · cases u with
    | mk inner =>
      cases inner with
      | mk l hl =>
        simp [Uuid.serialize, Uuid.as_bytes, Uuid.deserialize, MP_UUID,
          Uuid.try_from_slice, hl, Uuid.from_bytes]
  · intro hk
    simp [Uuid.deserialize, hk]
  · intro hk hlen
    simp [Uuid.deserialize, hk, Uuid.try_from_slice, hlen]
  · intro hk hlen
    refine ⟨?_, rfl⟩
    simp [Uuid.deserialize, hk, Uuid.try_from_slice, hlen]

/-- Witness for C9 at concrete extension structures. -/
theorem uuid_serde_spec_witness :
    Uuid.deserialize (ExtStruct.mk 3 [])
      = Except.error ("Expected UUID, found msgpack ext #" ++ toString (3 : Int)) ∧
    Uuid.deserialize (ExtStruct.mk MP_UUID [1, 2, 3])
      = Except.error
          ("Not enough bytes for UUID: expected 16, got "
            ++ toString ([1, 2, 3] : List Nat).length) ∧
    Uuid.deserialize (ExtStruct.mk MP_UUID (List.replicate 16 7))
      = Except.ok (Uuid.from_bytes (List.replicate 16 7) (by simp)) :=
  ⟨(uuid_serde_spec (Uuid.from_bytes (List.replicate 16 0) (by simp))
      (ExtStruct.mk 3 [])).2.2.1 (by decide),
    (uuid_serde_spec (Uuid.from_bytes (List.replicate 16 0) (by simp))
      (ExtStruct.mk MP_UUID [1, 2, 3])).2.2.2.1 rfl (by decide),
    ((uuid_serde_spec (Uuid.from_bytes (List.replicate 16 0) (by simp))
      (ExtStruct.mk MP_UUID (List.replicate 16 7))).2.2.2.2 rfl (by simp)).1⟩

/-- C10: try_from_slice returns some exactly when the slice has length
exactly 16 (longer slices are rejected, not truncated), and the bytes of the
resulting Uuid are exactly the input bytes. -/
theorem try_from_slice_spec (s : List Nat) :
    ((Uuid.try_from_slice s).isSome ↔ s.length = 16) ∧
    (∀ u, Uuid.try_from_slice s = some u → u.as_bytes = s) := by
  constructor
  · unfold Uuid.try_from_slice
    split <;> simp_all
  · intro u hu
    unfold Uuid.try_from_slice at hu
    split at hu
    · simp only [Option.some.injEq] at hu
      subst hu
      rfl
    · cases hu

/-- Witness for C10 at a concrete 16-byte slice. -/
theorem try_from_slice_spec_witness :
    (Uuid.try_from_slice (List.replicate 16 0)).isSome ∧
    (Uuid.from_bytes (List.replicate 16 0) (by simp)).as_bytes
      = List.replicate 16 0 :=
  ⟨((try_from_slice_spec (List.replicate 16 0)).1).mpr (by simp),
    (try_from_slice_spec (List.replicate 16 0)).2
      (Uuid.from_bytes (List.replicate 16 0) (by simp))
      (by simp [Uuid.try_from_slice])⟩

theorem lua_getglobal_pop (name : String) (st : LuaSt) :
    lua_popN 1 (lua_getglobal name st) = st := by
  cases st with
  | mk s g => simp [lua_popN, lua_pop, lua_getglobal]

theorem valueAt_neg_one (s : LuaStack) : valueAt s (-1) = s.head? := by
  simp [valueAt]
  cases s <;> simp

theorem isNilAt_getglobal (name : String) (st : LuaSt) :
    isNilAt (lua_getglobal name st).stack (-1)
      = ((st.globals.lookup (LuaValue.str name)).getD LuaValue.nil
          == LuaValue.nil) := by
  rw [isNilAt, lua_getglobal]
  rw [valueAt_neg_one]
  simp

theorem intReader_consumes (s : LuaSt) (v : Int) (s2 : LuaSt)
    (h : intReader s = Except.ok (v, s2)) : s2 = lua_popN 1 s := by
  cases s with
  | mk stack g =>
    cases stack with
    | nil => simp [intReader] at h
    | cons a rest =>
      cases a <;> simp [intReader] at h
      obtain ⟨h1, h2⟩ := h
      rw [← h2]
      simp [lua_popN, lua_pop]

theorem intReader_pure_err (s s2 : LuaSt) (h : intReader s = Except.error s2) :
    s2 = s := by
  cases s with
  | mk stack g =>
    cases stack with
    | nil =>
      simp [intReader] at h
      exact h.symm
    | cons a rest =>
      cases a <;> simp [intReader] at h <;> exact h.symm

/-- Counterexample for C5 as stated: reading a global holding a table with
the table reader (which, per the spec, yields a guard-wrapped handle to the
position of the table rather than a copy) returns Some while leaving the
interpreter stack one slot higher than before the call, so the stack height
after get does not always equal the height before. -/
theorem lua_get_height_counterexample :
    (Lua.get (LuaSt.mk [] [(LuaValue.str "t", LuaValue.table 1)]) "t"
        tableReader).1 = some (LuaTableRef.mk (-1)) ∧
    lua_gettop (Lua.get (LuaSt.mk [] [(LuaValue.str "t", LuaValue.table 1)]) "t"
        tableReader).2.stack
      ≠ lua_gettop (LuaSt.mk [] [(LuaValue.str "t", LuaValue.table 1)]).stack := by
  decide

/-- C5 (amended): for every type V whose reader consumes the one-slot guard
(popping the pushed slot on success and leaving the state untouched on
failure, as the readers of plain value types do), Lua.get returns the state
unchanged in every case, returns None exactly when the global reads as nil
or the value present fails to decode, and returns Some of the decoded value
otherwise.  For guard-retaining types such as tables the slot stays on the
stack, covered by the guard inside the returned handle. -/
theorem lua_get_spec {V : Type} (st : LuaSt) (name : String)
    (rdr : LuaSt → Except LuaSt (V × LuaSt))
    (hok : ∀ s v s2, rdr s = Except.ok (v, s2) → s2 = lua_popN 1 s)
    (herr : ∀ s s2, rdr s = Except.error s2 → s2 = s) :
    (Lua.get st name rdr).2 = st ∧
    ((Lua.get st name rdr).1 = none ↔
      ((st.globals.lookup (LuaValue.str name)).getD LuaValue.nil = LuaValue.nil ∨
        ∃ s2, rdr (lua_getglobal name st) = Except.error s2)) ∧
    (∀ v s2, rdr (lua_getglobal name st) = Except.ok (v, s2) →
      (st.globals.lookup (LuaValue.str name)).getD LuaValue.nil ≠ LuaValue.nil →
      (Lua.get st name rdr).1 = some v) := by
  by_cases hnil :
      (st.globals.lookup (LuaValue.str name)).getD LuaValue.nil = LuaValue.nil
  · have hb : isNilAt (lua_getglobal name st).stack (-1) = true := by
      rw [isNilAt_getglobal]
      simp [hnil]
    refine ⟨?_, ?_, ?_⟩
    · simp [Lua.get, hb, lua_getglobal_pop]
    · simp [Lua.get, hb, hnil]
    · intro v s2 _ hne
      exact absurd hnil hne
  · have hb : isNilAt (lua_getglobal name st).stack (-1) = false := by
      rw [isNilAt_getglobal]
      simp [hnil]
    cases hr : rdr (lua_getglobal name st) with
    | ok p =>
      obtain ⟨v, s2⟩ := p
      have hs2 : s2 = lua_popN 1 (lua_getglobal name st) := hok _ _ _ hr
      refine ⟨?_, ?_, ?_⟩
      · simp [Lua.get, hb, hr, hs2, lua_getglobal_pop]
      · simp [Lua.get, hb, hr, hnil]
      · intro v2 s22 h2 _
        simp only [Except.ok.injEq, Prod.mk.injEq] at h2
        simp [Lua.get, hb, hr, h2.1]
    | error s2 =>
      have hs2 : s2 = lua_getglobal name st := herr _ _ hr
      refine ⟨?_, ?_, ?_⟩
      · simp [Lua.get, hb, hr, hs2, lua_getglobal_pop]
      · simp [Lua.get, hb, hr]
      · intro v2 s22 h2 _
        exact absurd h2 (by simp)

/-- Witness for the amended C5 at a concrete context, global and the integer
reader. -/
theorem lua_get_spec_witness :
    (Lua.get (LuaSt.mk [] [(LuaValue.str "a", LuaValue.number 5)]) "a"
        intReader).2
      = LuaSt.mk [] [(LuaValue.str "a", LuaValue.number 5)] ∧
    (Lua.get (LuaSt.mk [] [(LuaValue.str "a", LuaValue.number 5)]) "a"
        intReader).1 = some (5 : Int) :=
  ⟨(lua_get_spec (LuaSt.mk [] [(LuaValue.str "a", LuaValue.number 5)]) "a"
      intReader intReader_consumes intReader_pure_err).1,
    (lua_get_spec (LuaSt.mk [] [(LuaValue.str "a", LuaValue.number 5)]) "a"
      intReader intReader_consumes intReader_pure_err).2.2 5
      (lua_popN 1
        (lua_getglobal "a" (LuaSt.mk [] [(LuaValue.str "a", LuaValue.number 5)])))
      rfl (by decide)⟩

theorem strJoin_pair (a b : String) : String.join [a, b] = a ++ b := by
  rw [strJoin_cons, strJoin_cons]
  show a ++ (b ++ String.join []) = a ++ b
  rw [show String.join [] = "" from rfl, String.append_empty]

theorem lua_typename_multi_rendering (st : LuaSt) (n : Int) (hn : 1 < n) :
    lua_typename st n
      = specTupleRendering
          ((List.range n.toNat).map
            (fun (k : Nat) => single_typename st ((k : Int) + 1))) := by
  have hne : ¬ n = 1 := by omega
  have hm : n.toNat = (n - 1).toNat + 1 := by omega
  have hmn : (((n - 1).toNat : Int)) + 1 = n := by omega
  rw [lua_typename, if_neg hne, specTupleRendering, hm, List.range_succ,
    List.map_append, List.map_cons, List.map_nil, hmn]
  have hA : (List.range (n - 1).toNat).map
        (fun (k : Nat) => single_typename st ((k : Int) + 1) ++ ", ")
      = ((List.range (n - 1).toNat).map
          (fun (k : Nat) => single_typename st ((k : Int) + 1))).map
          (fun t => t ++ ", ") := by
    rw [List.map_map]
    rfl
  calc
    String.join
        (["("]
          ++ (List.range (n - 1).toNat).map
              (fun (k : Nat) => single_typename st ((k : Int) + 1) ++ ", ")
          ++ [single_typename st n, ")"])
      = "(" ++ String.join
          ((List.range (n - 1).toNat).map
              (fun (k : Nat) => single_typename st ((k : Int) + 1) ++ ", ")
            ++ [single_typename st n, ")"]) := by
        rw [List.append_assoc]
        exact strJoin_cons "(" _
    _ = "(" ++ (String.join
          ((List.range (n - 1).toNat).map
              (fun (k : Nat) => single_typename st ((k : Int) + 1) ++ ", "))
          ++ String.join [single_typename st n, ")"]) := by
        rw [strJoin_append]
    _ = "(" ++ (String.join
          ((List.range (n - 1).toNat).map
              (fun (k : Nat) => single_typename st ((k : Int) + 1) ++ ", "))
          ++ (single_typename st n ++ ")")) := by
        rw [strJoin_pair]
    _ = "(" ++ ((String.join
          ((List.range (n - 1).toNat).map
              (fun (k : Nat) => single_typename st ((k : Int) + 1) ++ ", "))
          ++ single_typename st n) ++ ")") := by
        rw [String.append_assoc]
    _ = "(" ++ (specJoinComma
          (((List.range (n - 1).toNat).map
              (fun (k : Nat) => single_typename st ((k : Int) + 1)))
            ++ [single_typename st n]) ++ ")") := by
        rw [hA, join_map_comma]

/-- C8: wrong_type produces a WrongType error whose rust_expected field is
the rendered name of the requested host type and whose lua_actual field is
the runtime type string of the single inspected value when one value is
inspected, and, when n values with n greater than one are inspected, the
rendering that joins the runtime type strings of the n inspected values in
order with a comma and a space inside parentheses. -/
theorem wrong_type_spec (tn : String) (st : LuaSt) (n : Int) :
    LuaError.wrong_type tn st n = LuaError.WrongType tn (lua_typename st n) ∧
    (∀ v, st.stack.head? = some v → single_typename st 1 = luaTypeName v) ∧
    (n = 1 → lua_typename st n = single_typename st 1) ∧
    (1 < n → lua_typename st n
      = specTupleRendering
          ((List.range n.toNat).map
            (fun (k : Nat) => single_typename st ((k : Int) + 1)))) := by
  refine ⟨rfl, ?_, ?_, ?_⟩
  · intro v hv
    rw [single_typename]
    rw [show -(1 : Int) = (-1 : Int) from rfl]
    rw [valueAt_neg_one, hv]
  · intro h1
    subst h1
    simp [lua_typename]
  · intro hn
    exact lua_typename_multi_rendering st n hn

/-- Witness for C8 at a concrete stack holding a boolean above a number. -/
theorem wrong_type_spec_witness :
    LuaError.wrong_type "i32"
        (LuaSt.mk [LuaValue.boolean true, LuaValue.number 3] []) 2
      = LuaError.WrongType "i32"
          (lua_typename (LuaSt.mk [LuaValue.boolean true, LuaValue.number 3] []) 2) ∧
    single_typename (LuaSt.mk [LuaValue.boolean true, LuaValue.number 3] []) 1
      = luaTypeName (LuaValue.boolean true) ∧
    lua_typename (LuaSt.mk [LuaValue.boolean true, LuaValue.number 3] []) 1
      = single_typename (LuaSt.mk [LuaValue.boolean true, LuaValue.number 3] []) 1 ∧
    lua_typename (LuaSt.mk [LuaValue.boolean true, LuaValue.number 3] []) 2
      = specTupleRendering
          ((List.range (2 : Int).toNat).map
            (fun (k : Nat) => single_typename
              (LuaSt.mk [LuaValue.boolean true, LuaValue.number 3] [])
              ((k : Int) + 1))) :=
  ⟨(wrong_type_spec "i32"
      (LuaSt.mk [LuaValue.boolean true, LuaValue.number 3] []) 2).1,
    (wrong_type_spec "i32"
      (LuaSt.mk [LuaValue.boolean true, LuaValue.number 3] []) 2).2.1
      (LuaValue.boolean true) rfl,
    (wrong_type_spec "i32"
      (LuaSt.mk [LuaValue.boolean true, LuaValue.number 3] []) 1).2.2.1 rfl,
    (wrong_type_spec "i32"
      (LuaSt.mk [LuaValue.boolean true, LuaValue.number 3] []) 2).2.2.2
      (by decide)⟩

theorem sum_set_none (l : List (Option Nat)) (i : Nat) (n : Nat)
    (h : l[i]? = some (some n)) :
    n + ((l.set i none).filterMap id).sum = (l.filterMap id).sum := by
  induction l generalizing i with
  | nil => simp at h
  | cons a t ih =>
    cases i with
    | zero =>
      simp only [List.getElem?_cons_zero, Option.some.injEq] at h
      subst h
      simp [List.filterMap_cons]
    | succ j =>
      simp only [List.getElem?_cons_succ] at h
      have hih := ih j h
      cases a with
      | none =>
        simp only [List.set_cons_succ, List.filterMap_cons, id_eq]
        exact hih
      | some m =>
        simp only [List.set_cons_succ, List.filterMap_cons, id_eq,
          List.sum_cons]
        omega

theorem sum_zero_of_all_none (l : List (Option Nat))
    (h : l.all Option.isNone = true) : (l.filterMap id).sum = 0 := by
  induction l with
  | nil => simp
  | cons a t ih =>
    cases a with
    | none =>
      simp only [List.all_cons, Bool.and_eq_true] at h
      simp [List.filterMap_cons, ih h.2]
    | some m => simp [List.all_cons, Option.isNone] at h

theorem stepOp_invariant (base : Nat) (st : GuardMState) (op : StackOp)
    (h : st.stack.length = base + liveSum st) :
    (stepOp st op).stack.length = base + liveSum (stepOp st op) := by
  unfold liveSum at h
  cases op with
  | pushOp vals =>
    show (vals.reverse ++ st.stack).length
      = base + ((st.guards ++ [some vals.length]).filterMap id).sum
    rw [List.length_append, List.length_reverse, List.filterMap_append,
      List.sum_append]
    simp only [List.filterMap_cons, List.filterMap_nil, id_eq]
    simp only [List.sum_cons, List.sum_nil]
    omega
  | readOp => exact h
  | dropOp gi =>
    cases hg : st.guards[gi]? with
    | none =>
      have hstep : stepOp st (StackOp.dropOp gi) = st := by
        simp [stepOp, hg]
      rw [hstep]
      exact h
    | some o =>
      cases o with
      | none =>
        have hstep : stepOp st (StackOp.dropOp gi) = st := by
          simp [stepOp, hg]
        rw [hstep]
        exact h
      | some n =>
        have hstep : stepOp st (StackOp.dropOp gi)
            = GuardMState.mk (st.stack.drop n) (st.guards.set gi none) := by
          simp [stepOp, hg, dropRun_natCast]
        rw [hstep]
        have hsum := sum_set_none st.guards gi n hg
        show (st.stack.drop n).length
          = base + ((st.guards.set gi none).filterMap id).sum
        rw [List.length_drop]
        omega
  | disarmDrainOp gi =>
    cases hg : st.guards[gi]? with
    | none =>
      have hstep : stepOp st (StackOp.disarmDrainOp gi) = st := by
        simp [stepOp, hg]
      rw [hstep]
      exact h
    | some o =>
      cases o with
      | none =>
        have hstep : stepOp st (StackOp.disarmDrainOp gi) = st := by
          simp [stepOp, hg]
        rw [hstep]
        exact h
      | some n =>
        have hstep : stepOp st (StackOp.disarmDrainOp gi)
            = GuardMState.mk (st.stack.drop n) (st.guards.set gi none) := by
          simp [stepOp, hg, PushGuard.forget, PushGuard.forget_internal,
            PushGuard.dropRun, lua_pop]
        rw [hstep]
        have hsum := sum_set_none st.guards gi n hg
        show (st.stack.drop n).length
          = base + ((st.guards.set gi none).filterMap id).sum
        rw [List.length_drop]
        omega

theorem runOps_invariant (ops : List StackOp) (base : Nat) (st : GuardMState)
    (h : st.stack.length = base + liveSum st) :
    (runOps st ops).stack.length = base + liveSum (runOps st ops) := by
  induction ops generalizing st with
  | nil => exact h
  | cons op ops ih =>
    show (runOps (stepOp st op) ops).stack.length = _
    exact ih (stepOp st op) (stepOp_invariant base st op h)

/-- C1: for any sequence of push, read and guard operations issued against
one interpreter instance in which every PushGuard produced by the sequence
is either dropped or explicitly disarmed with its returned count drained
back to zero by the caller (so that at the end no guard is live), the
reported stack height (lua_gettop) after the sequence equals its height
before the sequence. -/
theorem stack_balance (ops : List StackOp) (s0 : List LuaValue)
    (hfin : (runOps (GuardMState.mk s0 []) ops).guards.all Option.isNone
      = true) :
    lua_gettop (runOps (GuardMState.mk s0 []) ops).stack = lua_gettop s0 := by
  have h0 : (GuardMState.mk s0 []).stack.length
      = s0.length + liveSum (GuardMState.mk s0 []) := by
    simp [liveSum]
  have hinv := runOps_invariant ops s0.length (GuardMState.mk s0 []) h0
  have hz := sum_zero_of_all_none _ hfin
  unfold liveSum at hinv
  unfold lua_gettop
  omega

/-- Witness for C1: a concrete sequence that pushes twice, reads, disarms
and drains the second guard, and drops the first guard, ending with no live
guard and the original stack height. -/
theorem stack_balance_witness :
    (runOps (GuardMState.mk [LuaValue.nil] [])
        [StackOp.pushOp [LuaValue.number 1, LuaValue.boolean true],
          StackOp.readOp,
          StackOp.pushOp [LuaValue.str "x"],
          StackOp.disarmDrainOp 1,
          StackOp.dropOp 0]).guards.all Option.isNone = true ∧
    lua_gettop (runOps (GuardMState.mk [LuaValue.nil] [])
        [StackOp.pushOp [LuaValue.number 1, LuaValue.boolean true],
          StackOp.readOp,
          StackOp.pushOp [LuaValue.str "x"],
          StackOp.disarmDrainOp 1,
          StackOp.dropOp 0]).stack
      = lua_gettop [LuaValue.nil] :=
  ⟨by decide,
    stack_balance
      [StackOp.pushOp [LuaValue.number 1, LuaValue.boolean true],
        StackOp.readOp,
        StackOp.pushOp [LuaValue.str "x"],
        StackOp.disarmDrainOp 1,
        StackOp.dropOp 0]
      [LuaValue.nil] (by decide)⟩
